import Mathlib

/-!
Shallow embedding of the option-pricing and delta-hedging engine
(BlackScholesModel, CallOption, PutOption, BarrierOption, AsianOption,
LookbackOption) over exact rational arithmetic.

Numbers are modelled by `ℚ`.  The transcendental library primitives the
C++ code calls (`std::exp`, `std::sqrt`, `std::log`, `std::erf`,
`std::erfc`, and the constant `M_SQRT1_2`) are abstracted into an `Ops`
record of rational-valued functions, so every definition stays
executable and the structural content of the code (which arguments are
passed where, which divisions occur, how paths are built) is preserved
exactly.  Random draws (`std::normal_distribution` values and
`rand()/RAND_MAX` values) are passed in explicitly as functions of the
loop indices, mirroring the fact that each loop iteration consumes one
fresh draw.
-/

/-- Abstraction of the numeric library primitives used by the C++ code. -/
structure Ops where
  exp : ℚ → ℚ
  sqrt : ℚ → ℚ
  log : ℚ → ℚ
  erf : ℚ → ℚ
  erfc : ℚ → ℚ
  invSqrt2 : ℚ

/-- Market model: `BlackScholesModel(spot, rate, volatility, dividend)`. -/
structure BlackScholesModel where
  spot : ℚ
  rate : ℚ
  volatility : ℚ
  dividend : ℚ
deriving Repr, DecidableEq

/-- `OptionType` enumeration from the C++ code. -/
inductive OptionType where
  | Call
  | Put
deriving Repr, DecidableEq

/-- `BarrierType` enumeration from the C++ code. -/
inductive BarrierType where
  | UpAndOut
  | DownAndOut
  | UpAndIn
  | DownAndIn
deriving Repr, DecidableEq

/-- Data of `CallOption(strike, maturity)`. -/
structure CallOption where
  strike : ℚ
  maturity : ℚ
deriving Repr, DecidableEq

/-- Data of `PutOption(strike, maturity)`. -/
structure PutOption where
  strike : ℚ
  maturity : ℚ
deriving Repr, DecidableEq

/-- Data of `BarrierOption(strike, maturity, barrier, barrierType, optionType)`. -/
structure BarrierOption where
  strike : ℚ
  maturity : ℚ
  barrier : ℚ
  barrierType : BarrierType
  optionType : OptionType
deriving Repr, DecidableEq

/-- Data of `AsianOption(strike, maturity, optionType)`. -/
structure AsianOption where
  strike : ℚ
  maturity : ℚ
  optionType : OptionType
deriving Repr, DecidableEq

/-- Data of `LookbackOption(strike, maturity, optionType)`. -/
structure LookbackOption where
  strike : ℚ
  maturity : ℚ
  optionType : OptionType
deriving Repr, DecidableEq

/-- `CallOption::payoff(double spot)`: `max(spot - strike, 0.0)`. -/
def CallOption.payoff (opt : CallOption) (spot : ℚ) : ℚ :=
  max (spot - opt.strike) 0

/-- `PutOption::payoff(double spot)`: `max(strike - spot, 0.0)`. -/
def PutOption.payoff (opt : PutOption) (spot : ℚ) : ℚ :=
  max (opt.strike - spot) 0

/-- `BarrierOption::payoff(double spot)`: vanilla terminal payoff by option type. -/
def BarrierOption.payoffSpot (opt : BarrierOption) (spot : ℚ) : ℚ :=
  match opt.optionType with
  | OptionType.Call => max (spot - opt.strike) 0
  | OptionType.Put => max (opt.strike - spot) 0

/-- `AsianOption::payoff(const std::vector<double>&)`: arithmetic-mean payoff.
`std::accumulate(path.begin(), path.end(), 0.0) / path.size()` followed by the
call/put max. -/
def AsianOption.payoffPath (opt : AsianOption) (path : List ℚ) : ℚ :=
  let average := path.sum / (path.length : ℚ)
  match opt.optionType with
  | OptionType.Call => max (average - opt.strike) 0
  | OptionType.Put => max (opt.strike - average) 0

/-- `AsianOption::payoff(double spot)`: always throws
`std::logic_error("payoff(double spot) is not applicable for AsianOption.")`. -/
def AsianOption.payoffSpot (_ : AsianOption) (_ : ℚ) : Except String ℚ :=
  Except.error "payoff(double spot) is not applicable for AsianOption."

/-- `LookbackOption::payoff(const std::vector<double>&)`: running-extremum payoff
using `std::max_element` (call) or `std::min_element` (put). -/
def LookbackOption.payoffPath (opt : LookbackOption) (path : List ℚ) : ℚ :=
  match opt.optionType with
  | OptionType.Call =>
    let maxPrice := match path with
      | [] => 0
      | x :: xs => xs.foldl max x
    max (maxPrice - opt.strike) 0
  | OptionType.Put =>
    let minPrice := match path with
      | [] => 0
      | x :: xs => xs.foldl min x
    max (opt.strike - minPrice) 0

/-- `LookbackOption::payoff(double spot)`: always throws
`std::logic_error("payoff(double spot) is not applicable for LookbackOption.")`. -/
def LookbackOption.payoffSpot (_ : LookbackOption) (_ : ℚ) : Except String ℚ :=
  Except.error "payoff(double spot) is not applicable for LookbackOption."

/-- The upward-crossing scan of `BarrierOption::isBarrierTouched`: the loop
`for i in 1..path.size()-1` testing `path[i-1] < barrier && path[i] >= barrier`. -/
def crossesUp (b : ℚ) : List ℚ → Bool
  | x :: y :: rest => (decide (x < b) && decide (b ≤ y)) || crossesUp b (y :: rest)
  | _ => false

/-- The downward-crossing scan of `BarrierOption::isBarrierTouched`: the loop
testing `path[i-1] > barrier && path[i] <= barrier`. -/
def crossesDown (b : ℚ) : List ℚ → Bool
  | x :: y :: rest => (decide (b < x) && decide (y ≤ b)) || crossesDown b (y :: rest)
  | _ => false

/-- `BarrierOption::isBarrierTouched(const std::vector<double>&)`: dispatch on
the barrier type, scanning for a directional crossing. -/
def BarrierOption.isBarrierTouched (opt : BarrierOption) (path : List ℚ) : Bool :=
  match opt.barrierType with
  | BarrierType.UpAndOut => crossesUp opt.barrier path
  | BarrierType.UpAndIn => crossesUp opt.barrier path
  | BarrierType.DownAndOut => crossesDown opt.barrier path
  | BarrierType.DownAndIn => crossesDown opt.barrier path

/-- One step of the discretized geometric Brownian motion used by every
Monte Carlo pricing loop:
`spot *= exp((rate - dividend - 0.5*vol*vol)*dt + vol*sqrt(dt)*z)`. -/
def gbmStep (ops : Ops) (model : BlackScholesModel) (dt z s : ℚ) : ℚ :=
  let drift := (model.rate - model.dividend - 0.5 * model.volatility * model.volatility) * dt
  let diffusion := model.volatility * ops.sqrt dt * z
  s * ops.exp (drift + diffusion)

/-- The inner simulation loop of the pricers: starting from `s`, consume the
draw list and record each updated price (`path.push_back(spot)` after each
update; the seed `s` itself is not recorded). -/
def simPath (ops : Ops) (model : BlackScholesModel) (dt : ℚ) (s : ℚ) : List ℚ → List ℚ
  | [] => []
  | z :: zs =>
    let s2 := gbmStep ops model dt z s
    s2 :: simPath ops model dt s2 zs

/-- The simulated trajectory built by one iteration of the Monte Carlo
pricing loops (`AsianOption::price`, `LookbackOption::price`,
`BarrierOption::price`): `steps` prices obtained by repeatedly updating
`model.spot`, the seed spot itself not being pushed onto the vector. -/
def mcPath (ops : Ops) (model : BlackScholesModel) (dt : ℚ) (zs : List ℚ) : List ℚ :=
  simPath ops model dt model.spot zs

/-- The closed-form trajectory of the same recurrence: `gbmSpot ... 0 = model.spot`
and `gbmSpot ... (j+1) = gbmSpot ... j` advanced by the draw `Z j`.  This is the
formula `S_0 = spot`, `S_(j+1) = S_j * exp((rate - dividend - 0.5*vol^2)*dt + vol*sqrt(dt)*Z_j)`. -/
def gbmSpot (ops : Ops) (model : BlackScholesModel) (dt : ℚ) (Z : Nat → ℚ) : Nat → ℚ
  | 0 => model.spot
  | j + 1 => gbmStep ops model dt (Z j) (gbmSpot ops model dt Z j)

/-- `AsianOption::price(model, numPaths, steps, adjustedMaturity)`:
`dt = adjustedMaturity/steps`; for each of `numPaths` paths simulate `steps`
prices (excluding the seed spot), accumulate `payoff(path)`, and return
`exp(-rate*adjustedMaturity) * (sumPayoffs / numPaths)`.  The draw `Z i j` is
the standard-normal value consumed by path `i` at its step `j`. -/
def AsianOption.priceWith (opt : AsianOption) (ops : Ops) (model : BlackScholesModel)
    (numPaths steps : Nat) (adjustedMaturity : ℚ) (Z : Nat → Nat → ℚ) : ℚ :=
  let dt := adjustedMaturity / (steps : ℚ)
  let sumPayoffs := (List.range numPaths).foldl
    (fun acc i =>
      let path := mcPath ops model dt ((List.range steps).map (Z i))
      acc + opt.payoffPath path) 0
  ops.exp (-(model.rate * adjustedMaturity)) * (sumPayoffs / (numPaths : ℚ))

/-- `AsianOption::price(model, numPaths, steps)`: delegates to the
adjusted-maturity overload with the option's own maturity. -/
def AsianOption.price (opt : AsianOption) (ops : Ops) (model : BlackScholesModel)
    (numPaths steps : Nat) (Z : Nat → Nat → ℚ) : ℚ :=
  opt.priceWith ops model numPaths steps opt.maturity Z

/-- `LookbackOption::price(model, numPaths, steps, adjustedMaturity)`: same
loop as the Asian pricer except that the initial spot is pushed onto the path
before simulation, so the path holds `steps+1` prices. -/
def LookbackOption.priceWith (opt : LookbackOption) (ops : Ops) (model : BlackScholesModel)
    (numPaths steps : Nat) (adjustedMaturity : ℚ) (Z : Nat → Nat → ℚ) : ℚ :=
  let dt := adjustedMaturity / (steps : ℚ)
  let sumPayoffs := (List.range numPaths).foldl
    (fun acc i =>
      let path := model.spot :: mcPath ops model dt ((List.range steps).map (Z i))
      acc + opt.payoffPath path) 0
  ops.exp (-(model.rate * adjustedMaturity)) * (sumPayoffs / (numPaths : ℚ))

/-- `LookbackOption::price(model, numPaths, steps)`: delegates to the
adjusted-maturity overload with the option's own maturity. -/
def LookbackOption.price (opt : LookbackOption) (ops : Ops) (model : BlackScholesModel)
    (numPaths steps : Nat) (Z : Nat → Nat → ℚ) : ℚ :=
  opt.priceWith ops model numPaths steps opt.maturity Z

/-- The per-path payoff accumulated by `BarrierOption::price`: zero for a
knocked-out (touched) or never-knocked-in (untouched) path, else the vanilla
terminal payoff on the last simulated price. -/
def BarrierOption.pathPayoff (opt : BarrierOption) (path : List ℚ) : ℚ :=
  let touched := opt.isBarrierTouched path
  if (opt.barrierType = BarrierType.UpAndOut ∨ opt.barrierType = BarrierType.DownAndOut)
      ∧ touched = true then 0
  else if (opt.barrierType = BarrierType.UpAndIn ∨ opt.barrierType = BarrierType.DownAndIn)
      ∧ touched = false then 0
  else opt.payoffSpot (path.getLastD 0)

/-- `BarrierOption::price(model, numPaths, steps, adjustedMaturity)`: simulate
`steps` prices per path (excluding the seed spot), gate the terminal payoff by
the barrier-touch scan, discount and average. -/
def BarrierOption.priceWith (opt : BarrierOption) (ops : Ops) (model : BlackScholesModel)
    (numPaths steps : Nat) (adjustedMaturity : ℚ) (Z : Nat → Nat → ℚ) : ℚ :=
  let dt := adjustedMaturity / (steps : ℚ)
  let sumPayoffs := (List.range numPaths).foldl
    (fun acc i =>
      let path := mcPath ops model dt ((List.range steps).map (Z i))
      acc + opt.pathPayoff path) 0
  ops.exp (-(model.rate * adjustedMaturity)) * (sumPayoffs / (numPaths : ℚ))

/-- `BarrierOption::price(model, numPaths, steps)`: delegates to the
adjusted-maturity overload with the option's own maturity. -/
def BarrierOption.price (opt : BarrierOption) (ops : Ops) (model : BlackScholesModel)
    (numPaths steps : Nat) (Z : Nat → Nat → ℚ) : ℚ :=
  opt.priceWith ops model numPaths steps opt.maturity Z

/-- `BlackScholesModel::normalCDF(x)`: `0.5 * erfc(-x * M_SQRT1_2)`. -/
def BlackScholesModel.normalCDF (ops : Ops) (x : ℚ) : ℚ :=
  0.5 * ops.erfc (-x * ops.invSqrt2)

/-- `BlackScholesModel::priceAnalytic(option, isCall)`: the closed-form
Black-Scholes price, computing `d1`, `d2`, the four cumulative normals, and the
call or put formula. -/
def BlackScholesModel.priceAnalytic (model : BlackScholesModel) (ops : Ops)
    (strike maturity : ℚ) (isCall : Bool) : ℚ :=
  let d1 := (ops.log (model.spot / strike) +
      (model.rate - model.dividend + 0.5 * model.volatility * model.volatility) * maturity) /
      (model.volatility * ops.sqrt maturity)
  let d2 := d1 - model.volatility * ops.sqrt maturity
  let Nd1 := BlackScholesModel.normalCDF ops d1
  let Nd2 := BlackScholesModel.normalCDF ops d2
  let Nmd1 := BlackScholesModel.normalCDF ops (-d1)
  let Nmd2 := BlackScholesModel.normalCDF ops (-d2)
  if isCall then
    model.spot * ops.exp (-(model.dividend * maturity)) * Nd1 -
      strike * ops.exp (-(model.rate * maturity)) * Nd2
  else
    strike * ops.exp (-(model.rate * maturity)) * Nmd2 -
      model.spot * ops.exp (-(model.dividend * maturity)) * Nmd1

/-- The `d1` expression recomputed inside the vanilla hedging loops:
`(log(spot/strike) + (rate - dividend + 0.5*vol*vol)*tau) / (vol*sqrt(tau))`. -/
def vanillaD1 (ops : Ops) (model : BlackScholesModel) (strike tau spotNow : ℚ) : ℚ :=
  (ops.log (spotNow / strike) +
      (model.rate - model.dividend + 0.5 * model.volatility * model.volatility) * tau) /
    (model.volatility * ops.sqrt tau)

/-- The call delta used by `CallOption::hedgeCost`:
`exp(-dividend*tau) * 0.5 * (1 + erf(d1/sqrt(2)))`. -/
def callDeltaBS (ops : Ops) (model : BlackScholesModel) (strike tau spotNow : ℚ) : ℚ :=
  ops.exp (-(model.dividend * tau)) *
    (0.5 * (1 + ops.erf (vanillaD1 ops model strike tau spotNow / ops.sqrt 2)))

/-- The put delta used by `PutOption::hedgeCost`:
`exp(-dividend*tau) * (0.5 * (1 + erf(d1/sqrt(2))) - 1)`. -/
def putDeltaBS (ops : Ops) (model : BlackScholesModel) (strike tau spotNow : ℚ) : ℚ :=
  ops.exp (-(model.dividend * tau)) *
    (0.5 * (1 + ops.erf (vanillaD1 ops model strike tau spotNow / ops.sqrt 2)) - 1)

/-- The "real world" one-step spot update of every hedging loop:
`spot *= exp((rate - dividend - 0.5*vol*vol)*dt + vol*sqrt(dt)*(rand()/RAND_MAX - 0.5))`,
where `u` stands for the `rand()/RAND_MAX` value drawn at that step. -/
def hedgeSpotStep (ops : Ops) (model : BlackScholesModel) (dt u s : ℚ) : ℚ :=
  let drift := (model.rate - model.dividend - 0.5 * model.volatility * model.volatility) * dt
  let diffusion := model.volatility * ops.sqrt dt * (u - 0.5)
  s * ops.exp (drift + diffusion)

/-- State threaded through the vanilla (`CallOption`/`PutOption`) hedging loop.
`taus` and `denoms` additionally record, for each delta computation performed
(the initial one and the one at every loop iteration), the remaining
time-to-maturity used and the denominator `vol*sqrt(tau)` of its `d1`. -/
structure VanillaHedgeState where
  spot : ℚ
  currentDelta : ℚ
  cash : ℚ
  taus : List ℚ
  denoms : List ℚ
deriving Repr, DecidableEq

/-- The body of the `CallOption::hedgeCost`/`PutOption::hedgeCost` loop at
iteration `i`: simulate the spot only when `i < steps`, then recompute the
delta at remaining maturity `maturity - i*dt` and update the cash account.
`deltaOf` is the variant's Black-Scholes delta. -/
def vanillaHedgeBody (ops : Ops) (model : BlackScholesModel) (strike maturity : ℚ)
    (steps : Nat) (u : Nat → ℚ) (deltaOf : Ops → BlackScholesModel → ℚ → ℚ → ℚ → ℚ)
    (st : VanillaHedgeState) (i : Nat) : VanillaHedgeState :=
  let dt := maturity / (steps : ℚ)
  let time := (i : ℚ) * dt
  let spot2 := if i < steps then hedgeSpotStep ops model dt (u i) st.spot else st.spot
  let tau := maturity - time
  let delta2 := deltaOf ops model strike tau spot2
  let cash2 := (st.cash + (delta2 - st.currentDelta) * spot2) * ops.exp (model.rate * dt)
  { spot := spot2, currentDelta := delta2, cash := cash2,
    taus := st.taus ++ [tau],
    denoms := st.denoms ++ [model.volatility * ops.sqrt tau] }

/-- The full run of `CallOption::hedgeCost(model, steps)`: initial delta at
`tau = maturity`, then the loop for `i = 1..steps` (inclusive). -/
def CallOption.hedgeRun (opt : CallOption) (ops : Ops) (model : BlackScholesModel)
    (steps : Nat) (u : Nat → ℚ) : VanillaHedgeState :=
  let delta0 := callDeltaBS ops model opt.strike opt.maturity model.spot
  let init : VanillaHedgeState :=
    { spot := model.spot, currentDelta := delta0, cash := delta0 * model.spot,
      taus := [opt.maturity], denoms := [model.volatility * ops.sqrt opt.maturity] }
  (List.range' 1 steps).foldl
    (vanillaHedgeBody ops model opt.strike opt.maturity steps u callDeltaBS) init

/-- `CallOption::hedgeCost(model, steps)`: final settlement
`cash - currentDelta*spot + payoff(spot)`. -/
def CallOption.hedgeCost (opt : CallOption) (ops : Ops) (model : BlackScholesModel)
    (steps : Nat) (u : Nat → ℚ) : ℚ :=
  let st := opt.hedgeRun ops model steps u
  st.cash - st.currentDelta * st.spot + opt.payoff st.spot

/-- The full run of `PutOption::hedgeCost(model, steps)`. -/
def PutOption.hedgeRun (opt : PutOption) (ops : Ops) (model : BlackScholesModel)
    (steps : Nat) (u : Nat → ℚ) : VanillaHedgeState :=
  let delta0 := putDeltaBS ops model opt.strike opt.maturity model.spot
  let init : VanillaHedgeState :=
    { spot := model.spot, currentDelta := delta0, cash := delta0 * model.spot,
      taus := [opt.maturity], denoms := [model.volatility * ops.sqrt opt.maturity] }
  (List.range' 1 steps).foldl
    (vanillaHedgeBody ops model opt.strike opt.maturity steps u putDeltaBS) init

/-- `PutOption::hedgeCost(model, steps)`: final settlement. -/
def PutOption.hedgeCost (opt : PutOption) (ops : Ops) (model : BlackScholesModel)
    (steps : Nat) (u : Nat → ℚ) : ℚ :=
  let st := opt.hedgeRun ops model steps u
  st.cash - st.currentDelta * st.spot + opt.payoff st.spot

/-- Record of one finite-difference pair of nested pricing calls made by an
exotic hedging loop: the step index, the simulated spot at that step, the two
bumped spots actually passed (`modelUp.spot`, `modelDown.spot`), and the
`numPaths`, `steps` and maturity arguments handed to the nested pricer. -/
structure FDCall where
  step : Nat
  spotAt : ℚ
  spotUp : ℚ
  spotDown : ℚ
  numPathsArg : Nat
  stepsArg : Nat
  maturityArg : ℚ
deriving Repr, DecidableEq

/-- State threaded through the exotic (`AsianOption`/`LookbackOption`)
hedging loops, extended with the recorded trajectory and the trace of
finite-difference pricing-call pairs. -/
structure HedgeState where
  spot : ℚ
  delta : ℚ
  cash : ℚ
  path : List ℚ
  calls : List FDCall
deriving Repr, DecidableEq

/-- The hard-coded nested Monte Carlo path count of every exotic
`hedgeCost`: `int numPaths = 10000;`. -/
def hedgeNumPaths : Nat := 10000

/-- The body of the `AsianOption::hedgeCost` loop at iteration `i`: evolve the
spot with a uniform-based perturbation, record it on the trajectory, reprice
both bumped models with the default-maturity overload `price(modelUp,
numPaths, steps - i)` (note: the locally computed `adjustedMaturity =
maturity - i*dt` is never passed), and update delta and cash.  `ZN i b`
supplies the nested normal draws of the up (`b = true`) and down pricing call
at step `i`. -/
def AsianOption.hedgeBody (opt : AsianOption) (ops : Ops) (model : BlackScholesModel)
    (steps : Nat) (u : Nat → ℚ) (ZN : Nat → Bool → Nat → Nat → ℚ)
    (st : HedgeState) (i : Nat) : HedgeState :=
  let epsilon := 0.01 * model.spot
  let dt := opt.maturity / (steps : ℚ)
  let spot2 := hedgeSpotStep ops model dt (u i) st.spot
  let spotUp := spot2 + epsilon
  let spotDown := spot2 - epsilon
  let priceUp := opt.price ops { model with spot := spotUp } hedgeNumPaths (steps - i) (ZN i true)
  let priceDown := opt.price ops { model with spot := spotDown } hedgeNumPaths (steps - i) (ZN i false)
  let delta2 := (priceUp - priceDown) / (2 * epsilon)
  let cash2 := (st.cash + (delta2 - st.delta) * spot2) * ops.exp (model.rate * dt)
  { spot := spot2, delta := delta2, cash := cash2,
    path := st.path ++ [spot2],
    calls := st.calls ++ [⟨i, spot2, spotUp, spotDown, hedgeNumPaths, steps - i, opt.maturity⟩] }

/-- The full run of `AsianOption::hedgeCost(model, steps)`: initial finite
difference at the unbumped model via the default-maturity pricer, then the
loop for `i = 1..steps-1`. -/
def AsianOption.hedgeRun (opt : AsianOption) (ops : Ops) (model : BlackScholesModel)
    (steps : Nat) (u : Nat → ℚ) (ZN : Nat → Bool → Nat → Nat → ℚ) : HedgeState :=
  let epsilon := 0.01 * model.spot
  let spotUp0 := model.spot + epsilon
  let spotDown0 := model.spot - epsilon
  let priceUp0 := opt.price ops { model with spot := spotUp0 } hedgeNumPaths steps (ZN 0 true)
  let priceDown0 := opt.price ops { model with spot := spotDown0 } hedgeNumPaths steps (ZN 0 false)
  let delta0 := (priceUp0 - priceDown0) / (2 * epsilon)
  let init : HedgeState :=
    { spot := model.spot, delta := delta0, cash := delta0 * model.spot,
      path := [model.spot],
      calls := [⟨0, model.spot, spotUp0, spotDown0, hedgeNumPaths, steps, opt.maturity⟩] }
  (List.range' 1 (steps - 1)).foldl (opt.hedgeBody ops model steps u ZN) init

/-- `AsianOption::hedgeCost(model, steps)`: final settlement
`cash - delta*spot + payoff(path)` on the recorded real-world trajectory. -/
def AsianOption.hedgeCost (opt : AsianOption) (ops : Ops) (model : BlackScholesModel)
    (steps : Nat) (u : Nat → ℚ) (ZN : Nat → Bool → Nat → Nat → ℚ) : ℚ :=
  let st := opt.hedgeRun ops model steps u ZN
  st.cash - st.delta * st.spot + opt.payoffPath st.path

/-- The body of the `LookbackOption::hedgeCost` loop at iteration `i`:
identical shape to the Asian loop, again calling the default-maturity pricer
`price(modelUp, numPaths, steps - i)`. -/
def LookbackOption.hedgeBody (opt : LookbackOption) (ops : Ops) (model : BlackScholesModel)
    (steps : Nat) (u : Nat → ℚ) (ZN : Nat → Bool → Nat → Nat → ℚ)
    (st : HedgeState) (i : Nat) : HedgeState :=
  let epsilon := 0.01 * model.spot
  let dt := opt.maturity / (steps : ℚ)
  let spot2 := hedgeSpotStep ops model dt (u i) st.spot
  let spotUp := spot2 + epsilon
  let spotDown := spot2 - epsilon
  let priceUp := opt.price ops { model with spot := spotUp } hedgeNumPaths (steps - i) (ZN i true)
  let priceDown := opt.price ops { model with spot := spotDown } hedgeNumPaths (steps - i) (ZN i false)
  let delta2 := (priceUp - priceDown) / (2 * epsilon)
  let cash2 := (st.cash + (delta2 - st.delta) * spot2) * ops.exp (model.rate * dt)
  { spot := spot2, delta := delta2, cash := cash2,
    path := st.path ++ [spot2],
    calls := st.calls ++ [⟨i, spot2, spotUp, spotDown, hedgeNumPaths, steps - i, opt.maturity⟩] }

/-- The full run of `LookbackOption::hedgeCost(model, steps)`. -/
def LookbackOption.hedgeRun (opt : LookbackOption) (ops : Ops) (model : BlackScholesModel)
    (steps : Nat) (u : Nat → ℚ) (ZN : Nat → Bool → Nat → Nat → ℚ) : HedgeState :=
  let epsilon := 0.01 * model.spot
  let spotUp0 := model.spot + epsilon
  let spotDown0 := model.spot - epsilon
  let priceUp0 := opt.price ops { model with spot := spotUp0 } hedgeNumPaths steps (ZN 0 true)
  let priceDown0 := opt.price ops { model with spot := spotDown0 } hedgeNumPaths steps (ZN 0 false)
  let delta0 := (priceUp0 - priceDown0) / (2 * epsilon)
  let init : HedgeState :=
    { spot := model.spot, delta := delta0, cash := delta0 * model.spot,
      path := [model.spot],
      calls := [⟨0, model.spot, spotUp0, spotDown0, hedgeNumPaths, steps, opt.maturity⟩] }
  (List.range' 1 (steps - 1)).foldl (opt.hedgeBody ops model steps u ZN) init

/-- `LookbackOption::hedgeCost(model, steps)`: final settlement
`cash - delta*spot + payoff(path)`. -/
def LookbackOption.hedgeCost (opt : LookbackOption) (ops : Ops) (model : BlackScholesModel)
    (steps : Nat) (u : Nat → ℚ) (ZN : Nat → Bool → Nat → Nat → ℚ) : ℚ :=
  let st := opt.hedgeRun ops model steps u ZN
  st.cash - st.delta * st.spot + opt.payoffPath st.path

/-- State threaded through the `BarrierOption::hedgeCost` loop: the exotic
hedge state plus the `barrierTouched` flag. -/
structure BarrierHedgeState where
  spot : ℚ
  delta : ℚ
  cash : ℚ
  path : List ℚ
  touched : Bool
  calls : List FDCall
deriving Repr, DecidableEq

/-- The body of the `BarrierOption::hedgeCost` loop at iteration `i`: evolve
and record the spot, rescan the trajectory for a barrier touch; if touched the
delta is set to `0` with no pricing calls, otherwise both bumped models are
repriced with `price(modelUp, numPaths, steps - i, adjustedMaturity)` where
`adjustedMaturity = maturity - i*dt`; then the cash account is updated. -/
def BarrierOption.hedgeBody (opt : BarrierOption) (ops : Ops) (model : BlackScholesModel)
    (steps : Nat) (u : Nat → ℚ) (ZN : Nat → Bool → Nat → Nat → ℚ)
    (st : BarrierHedgeState) (i : Nat) : BarrierHedgeState :=
  let epsilon := 0.01 * model.spot
  let dt := opt.maturity / (steps : ℚ)
  let adjustedMaturity := opt.maturity - (i : ℚ) * dt
  let spot2 := hedgeSpotStep ops model dt (u i) st.spot
  let path2 := st.path ++ [spot2]
  let touched2 := opt.isBarrierTouched path2
  if touched2 = true then
    let delta2 := 0
    let cash2 := (st.cash + (delta2 - st.delta) * spot2) * ops.exp (model.rate * dt)
    { spot := spot2, delta := delta2, cash := cash2, path := path2,
      touched := touched2, calls := st.calls }
  else
    let spotUp := spot2 + epsilon
    let spotDown := spot2 - epsilon
    let priceUp := opt.priceWith ops { model with spot := spotUp }
      hedgeNumPaths (steps - i) adjustedMaturity (ZN i true)
    let priceDown := opt.priceWith ops { model with spot := spotDown }
      hedgeNumPaths (steps - i) adjustedMaturity (ZN i false)
    let delta2 := (priceUp - priceDown) / (2 * epsilon)
    let cash2 := (st.cash + (delta2 - st.delta) * spot2) * ops.exp (model.rate * dt)
    { spot := spot2, delta := delta2, cash := cash2, path := path2,
      touched := touched2,
      calls := st.calls ++ [⟨i, spot2, spotUp, spotDown, hedgeNumPaths, steps - i, adjustedMaturity⟩] }

/-- The full run of `BarrierOption::hedgeCost(model, steps)`: initial finite
difference via the default-maturity pricer, initial barrier check on the
single-element trajectory `[model.spot]`, then the loop for `i = 1..steps-1`. -/
def BarrierOption.hedgeRun (opt : BarrierOption) (ops : Ops) (model : BlackScholesModel)
    (steps : Nat) (u : Nat → ℚ) (ZN : Nat → Bool → Nat → Nat → ℚ) : BarrierHedgeState :=
  let epsilon := 0.01 * model.spot
  let spotUp0 := model.spot + epsilon
  let spotDown0 := model.spot - epsilon
  let priceUp0 := opt.price ops { model with spot := spotUp0 } hedgeNumPaths steps (ZN 0 true)
  let priceDown0 := opt.price ops { model with spot := spotDown0 } hedgeNumPaths steps (ZN 0 false)
  let delta0 := (priceUp0 - priceDown0) / (2 * epsilon)
  let init : BarrierHedgeState :=
    { spot := model.spot, delta := delta0, cash := delta0 * model.spot,
      path := [model.spot],
      touched := opt.isBarrierTouched [model.spot],
      calls := [⟨0, model.spot, spotUp0, spotDown0, hedgeNumPaths, steps, opt.maturity⟩] }
  (List.range' 1 (steps - 1)).foldl (opt.hedgeBody ops model steps u ZN) init

/-- `BarrierOption::hedgeCost(model, steps)`: the terminal vanilla payoff is
added to cash only under the in/out knock rule, then `cash - delta*spot` is
returned. -/
def BarrierOption.hedgeCost (opt : BarrierOption) (ops : Ops) (model : BlackScholesModel)
    (steps : Nat) (u : Nat → ℚ) (ZN : Nat → Bool → Nat → Nat → ℚ) : ℚ :=
  let st := opt.hedgeRun ops model steps u ZN
  let finalPayoff := opt.payoffSpot st.spot
  let cash2 :=
    if (opt.barrierType = BarrierType.UpAndIn ∨ opt.barrierType = BarrierType.DownAndIn)
        ∧ st.touched = true then st.cash + finalPayoff
    else if (opt.barrierType = BarrierType.UpAndOut ∨ opt.barrierType = BarrierType.DownAndOut)
        ∧ st.touched = false then st.cash + finalPayoff
    else st.cash
  cash2 - st.delta * st.spot

/-- The "real world" spot trajectory of the exotic hedging loops in closed
form: `hedgeSpots ... 0 = model.spot`, and step `j+1` applies the
uniform-perturbation update with draw `u (j+1)` (the loop index starts at 1). -/
def hedgeSpots (ops : Ops) (model : BlackScholesModel) (maturity : ℚ) (steps : Nat)
    (u : Nat → ℚ) : Nat → ℚ
  | 0 => model.spot
  | j + 1 => hedgeSpotStep ops model (maturity / (steps : ℚ)) (u (j + 1))
      (hedgeSpots ops model maturity steps u j)

/-- Concrete stand-in for the numeric primitives, used to evaluate the
embedding on explicit inputs.  It satisfies the structural identities the
real library functions satisfy where a theorem needs them:
`sqrt 0 = 0`, `log 1 = 0`, and `erfc (-y) = 2 - erfc y`. -/
def opsTest : Ops :=
  { exp := fun x => 1 + x, sqrt := fun x => x, log := fun x => x - 1,
    erf := fun x => x, erfc := fun x => 1 - x, invSqrt2 := 1 }

/-- Concrete market model for evaluations: spot 100, rate 0, volatility 1/5,
no dividend. -/
def modelTest : BlackScholesModel :=
  { spot := 100, rate := 0, volatility := 1/5, dividend := 0 }

/-- Concrete Asian call, strike 100, maturity 1. -/
def asianTestOpt : AsianOption :=
  { strike := 100, maturity := 1, optionType := OptionType.Call }

/-- Concrete lookback call, strike 100, maturity 1. -/
def lookTestOpt : LookbackOption :=
  { strike := 100, maturity := 1, optionType := OptionType.Call }

/-- Concrete up-and-out barrier call, strike 100, barrier 120, maturity 1. -/
def barrierTestOpt : BarrierOption :=
  { strike := 100, maturity := 1, barrier := 120,
    barrierType := BarrierType.UpAndOut, optionType := OptionType.Call }

/-- Concrete vanilla call, strike 100, maturity 1. -/
def callTestOpt : CallOption := { strike := 100, maturity := 1 }

/-- Concrete vanilla put, strike 100, maturity 1. -/
def putTestOpt : PutOption := { strike := 100, maturity := 1 }

/-- Constant uniform draw `rand()/RAND_MAX = 1` for concrete hedge runs. -/
def uOne : Nat → ℚ := fun _ => 1

/-- Zero normal draws for concrete pricing runs. -/
def zZero : Nat → Nat → ℚ := fun _ _ => 0

/-- Zero normal draws for the nested pricers inside concrete hedge runs. -/
def znZero : Nat → Bool → Nat → Nat → ℚ := fun _ _ _ _ => 0

/-- Placeholder call record used as the default of list lookups. -/
def defaultFDCall : FDCall :=
  { step := 0, spotAt := 0, spotUp := 0, spotDown := 0,
    numPathsArg := 0, stepsArg := 0, maturityArg := 0 }

/-- Concrete up-and-out barrier call with barrier level 100 (the spec's
`isBarrierTouched` test scenario). -/
def barrier100Opt : BarrierOption :=
  { strike := 100, maturity := 1, barrier := 100,
    barrierType := BarrierType.UpAndOut, optionType := OptionType.Call }

/-- The upward scan accepts exactly the paths with a consecutive pair
`path[j] < b ≤ path[j+1]`. -/
theorem crossesUp_exists (b : ℚ) :
    ∀ path : List ℚ, crossesUp b path = true ↔
      ∃ j, j + 1 < path.length ∧ path.getD j 0 < b ∧ b ≤ path.getD (j + 1) 0 := by
  intro path
  induction path with
  | nil => simp [crossesUp]
  | cons x tail ih =>
    cases tail with
    | nil => simp [crossesUp]
    | cons y rest =>
      have hstep : crossesUp b (x :: y :: rest) =
          ((decide (x < b) && decide (b ≤ y)) || crossesUp b (y :: rest)) := rfl
      rw [hstep]
      simp only [Bool.or_eq_true, Bool.and_eq_true, decide_eq_true_eq, ih]
      constructor
      · rintro (⟨h1, h2⟩ | ⟨j, hj, hg1, hg2⟩)
        · exact ⟨0, by simp, by simpa using h1, by simpa using h2⟩
        · refine ⟨j + 1, ?_, ?_, ?_⟩
          · simp only [List.length_cons] at hj ⊢
            omega
          · simpa using hg1
          · simpa using hg2
      · rintro ⟨j, hj, hg1, hg2⟩
        cases j with
        | zero =>
          left
          exact ⟨by simpa using hg1, by simpa using hg2⟩
        | succ j =>
          right
          refine ⟨j, ?_, ?_, ?_⟩
          · simp only [List.length_cons] at hj ⊢
            omega
          · simpa using hg1
          · simpa using hg2

/-- The downward scan accepts exactly the paths with a consecutive pair
`path[j] > b ≥ path[j+1]`. -/
theorem crossesDown_exists (b : ℚ) :
    ∀ path : List ℚ, crossesDown b path = true ↔
      ∃ j, j + 1 < path.length ∧ b < path.getD j 0 ∧ path.getD (j + 1) 0 ≤ b := by
  intro path
  induction path with
  | nil => simp [crossesDown]
  | cons x tail ih =>
    cases tail with
    | nil => simp [crossesDown]
    | cons y rest =>
      have hstep : crossesDown b (x :: y :: rest) =
          ((decide (b < x) && decide (y ≤ b)) || crossesDown b (y :: rest)) := rfl
      rw [hstep]
      simp only [Bool.or_eq_true, Bool.and_eq_true, decide_eq_true_eq, ih]
      constructor
      · rintro (⟨h1, h2⟩ | ⟨j, hj, hg1, hg2⟩)
        · exact ⟨0, by simp, by simpa using h1, by simpa using h2⟩
        · refine ⟨j + 1, ?_, ?_, ?_⟩
          · simp only [List.length_cons] at hj ⊢
            omega
          · simpa using hg1
          · simpa using hg2
      · rintro ⟨j, hj, hg1, hg2⟩
        cases j with
        | zero =>
          left
          exact ⟨by simpa using hg1, by simpa using hg2⟩
        | succ j =>
          right
          refine ⟨j, ?_, ?_, ?_⟩
          · simp only [List.length_cons] at hj ⊢
            omega
          · simpa using hg1
          · simpa using hg2

/-- Reindexing of the pairwise characterization from `j, j+1` to `i-1, i`
with `1 ≤ i`. -/
theorem exists_pair_shift (P : Nat → Nat → Prop) (n : Nat) :
    (∃ j, j + 1 < n ∧ P j (j + 1)) ↔ (∃ i, 1 ≤ i ∧ i < n ∧ P (i - 1) i) := by
  constructor
  · rintro ⟨j, hj, hp⟩
    exact ⟨j + 1, by omega, by omega, by simpa using hp⟩
  · rintro ⟨i, h1, h2, hp⟩
    refine ⟨i - 1, by omega, ?_⟩
    have : i - 1 + 1 = i := by omega
    rw [this]
    exact hp

/-- C7: `BarrierOption::isBarrierTouched(path)` returns true iff some index
`i ≥ 1` has `path[i-1] < barrier ≤ path[i]` (Up-type barriers) or
`path[i-1] > barrier ≥ path[i]` (Down-type barriers); in particular on the
path `[90, 95, 100, 105, 110]` with barrier 100 and an Up-type barrier it
returns true. -/
theorem isBarrierTouched_crossing_iff (opt : BarrierOption) (path : List ℚ) :
    ((opt.barrierType = BarrierType.UpAndOut ∨ opt.barrierType = BarrierType.UpAndIn) →
      (opt.isBarrierTouched path = true ↔
        ∃ i, 1 ≤ i ∧ i < path.length ∧
          path.getD (i - 1) 0 < opt.barrier ∧ opt.barrier ≤ path.getD i 0))
  ∧ ((opt.barrierType = BarrierType.DownAndOut ∨ opt.barrierType = BarrierType.DownAndIn) →
      (opt.isBarrierTouched path = true ↔
        ∃ i, 1 ≤ i ∧ i < path.length ∧
          opt.barrier < path.getD (i - 1) 0 ∧ path.getD i 0 ≤ opt.barrier))
  ∧ barrier100Opt.isBarrierTouched [90, 95, 100, 105, 110] = true := by
  refine ⟨?_, ?_, by decide⟩
  · intro hup
    have hscan : opt.isBarrierTouched path = crossesUp opt.barrier path := by
      rcases hup with h | h <;> rw [BarrierOption.isBarrierTouched, h]
    rw [hscan, crossesUp_exists]
    exact exists_pair_shift
      (fun a b2 => path.getD a 0 < opt.barrier ∧ opt.barrier ≤ path.getD b2 0) path.length
  · intro hdn
    have hscan : opt.isBarrierTouched path = crossesDown opt.barrier path := by
      rcases hdn with h | h <;> rw [BarrierOption.isBarrierTouched, h]
    rw [hscan, crossesDown_exists]
    exact exists_pair_shift
      (fun a b2 => opt.barrier < path.getD a 0 ∧ path.getD b2 0 ≤ opt.barrier) path.length

/-- Witness for C7: instantiated at the spec's concrete scenario, the
Up-type hypothesis is discharged and the crossing index is produced. -/
theorem isBarrierTouched_crossing_iff_witness :
    ∃ i, 1 ≤ i ∧ i < ([90, 95, 100, 105, 110] : List ℚ).length ∧
      ([90, 95, 100, 105, 110] : List ℚ).getD (i - 1) 0 < barrier100Opt.barrier ∧
      barrier100Opt.barrier ≤ ([90, 95, 100, 105, 110] : List ℚ).getD i 0 :=
  ((isBarrierTouched_crossing_iff barrier100Opt [90, 95, 100, 105, 110]).1
    (Or.inl rfl)).mp (by decide)

/-- C10: a path of length 0 or 1 is never reported as touching the barrier,
for every barrier type and level; hence the barrier state computed at the
start of `BarrierOption::hedgeCost` on the single-element initial trajectory
`[model.spot]` is always untouched (witnessed on a run with `steps = 1`,
whose loop body never executes, so the final state still holds the initial
check). -/
theorem isBarrierTouched_short_path_false (opt : BarrierOption) :
    (∀ path : List ℚ, path.length ≤ 1 → opt.isBarrierTouched path = false)
  ∧ (∀ model : BlackScholesModel, opt.isBarrierTouched [model.spot] = false)
  ∧ (∀ (ops : Ops) (model : BlackScholesModel) (u : Nat → ℚ)
      (ZN : Nat → Bool → Nat → Nat → ℚ),
      (opt.hedgeRun ops model 1 u ZN).touched = opt.isBarrierTouched [model.spot]) := by
  have hshort : ∀ path : List ℚ, path.length ≤ 1 → opt.isBarrierTouched path = false := by
    intro path h
    rcases path with _ | ⟨x, _ | ⟨y, rest⟩⟩
    · cases hbt : opt.barrierType <;>
        simp [BarrierOption.isBarrierTouched, hbt, crossesUp, crossesDown]
    · cases hbt : opt.barrierType <;>
        simp [BarrierOption.isBarrierTouched, hbt, crossesUp, crossesDown]
    · simp only [List.length_cons] at h
      omega
  refine ⟨hshort, fun model => hshort [model.spot] (by simp), ?_⟩
  intro ops model u ZN
  rfl

/-- Witness for C10: the length hypothesis discharged on the concrete
single-element path `[100]` with the concrete barrier option. -/
theorem isBarrierTouched_short_path_false_witness :
    barrierTestOpt.isBarrierTouched [(100 : ℚ)] = false :=
  (isBarrierTouched_short_path_false barrierTestOpt).1 [(100 : ℚ)] (by decide)

/-- C4: `AsianOption::payoff(double)` and `LookbackOption::payoff(double)`
always raise the unsupported-operation `std::logic_error` (modelled as an
`Except.error` carrying the exact message), and never return a numeric
value, for every spot. -/
theorem exotic_terminal_payoff_always_errors (a : AsianOption) (l : LookbackOption) (spot : ℚ) :
    a.payoffSpot spot =
      Except.error "payoff(double spot) is not applicable for AsianOption."
  ∧ (∀ q : ℚ, a.payoffSpot spot ≠ Except.ok q)
  ∧ l.payoffSpot spot =
      Except.error "payoff(double spot) is not applicable for LookbackOption."
  ∧ (∀ q : ℚ, l.payoffSpot spot ≠ Except.ok q) := by
  refine ⟨rfl, ?_, rfl, ?_⟩ <;> intro q h <;>
    simp [AsianOption.payoffSpot, LookbackOption.payoffSpot] at h

/-- C2 (code bug): none of the Monte Carlo pricers validates `numPaths` or
`steps`.  The C++ code computes `dt = adjustedMaturity/steps` and
`sumPayoffs/numPaths` unguarded and silently returns a numeric value (NaN or
0.0 under IEEE arithmetic) instead of failing; in this total-arithmetic
embedding (whose plain return type mirrors the absence of any error path in
the source) the degenerate configurations `numPaths = 0` and `steps = 0`
silently return the value 0. -/
theorem mc_price_invalid_config_returns_zero :
    asianTestOpt.price opsTest modelTest 0 100 zZero = 0
  ∧ asianTestOpt.price opsTest modelTest 1 0 zZero = 0
  ∧ lookTestOpt.price opsTest modelTest 0 100 zZero = 0
  ∧ lookTestOpt.price opsTest modelTest 1 0 zZero = 0
  ∧ barrierTestOpt.price opsTest modelTest 0 100 zZero = 0
  ∧ barrierTestOpt.price opsTest modelTest 1 0 zZero = 0 := by
  refine ⟨?_, ?_, ?_, ?_, ?_, ?_⟩
  · norm_num [AsianOption.price, AsianOption.priceWith, opsTest, modelTest, asianTestOpt]
  · norm_num [AsianOption.price, AsianOption.priceWith, AsianOption.payoffPath, mcPath,
      simPath, opsTest, modelTest, asianTestOpt, zZero, List.range_succ, max_def]
  · norm_num [LookbackOption.price, LookbackOption.priceWith, opsTest, modelTest, lookTestOpt]
  · norm_num [LookbackOption.price, LookbackOption.priceWith, LookbackOption.payoffPath,
      mcPath, simPath, opsTest, modelTest, lookTestOpt, zZero, List.range_succ, max_def]
  · norm_num [BarrierOption.price, BarrierOption.priceWith, opsTest, modelTest, barrierTestOpt]
  · norm_num [BarrierOption.price, BarrierOption.priceWith, BarrierOption.pathPayoff,
      BarrierOption.payoffSpot, BarrierOption.isBarrierTouched, crossesUp, mcPath, simPath,
      opsTest, modelTest, barrierTestOpt, zZero, List.range_succ, max_def]

/-- Fold invariant for the recorded pricing-call traces: if every loop body
only appends calls satisfying `P`, then every call of the final state
satisfies `P` provided the initial ones do. -/
theorem foldl_calls_inv {σ : Type} (getCalls : σ → List FDCall) (P : FDCall → Prop)
    (f : σ → Nat → σ)
    (hf : ∀ st i, ∀ c ∈ getCalls (f st i), c ∈ getCalls st ∨ P c) :
    ∀ (l : List Nat) (st : σ), (∀ c ∈ getCalls st, P c) →
      ∀ c ∈ getCalls (l.foldl f st), P c := by
  intro l
  induction l with
  | nil => intro st h; exact h
  | cons a t ih =>
    intro st h c hc
    refine ih (f st a) ?_ c hc
    intro c2 hc2
    rcases hf st a c2 hc2 with hmem | hp
    · exact h c2 hmem
    · exact hp

/-- Shape of the call pair appended by one iteration of the Asian hedging
loop: default-overload maturity, reduced step count, hard-coded path count,
and bumps of `0.01 * model.spot` around the current simulated spot. -/
theorem asianHedgeBody_calls (opt : AsianOption) (ops : Ops) (model : BlackScholesModel)
    (steps : Nat) (u : Nat → ℚ) (ZN : Nat → Bool → Nat → Nat → ℚ)
    (st : HedgeState) (i : Nat) :
    ∀ c ∈ (opt.hedgeBody ops model steps u ZN st i).calls,
      c ∈ st.calls ∨
        (c.maturityArg = opt.maturity ∧ c.stepsArg = steps - c.step ∧
          c.numPathsArg = hedgeNumPaths ∧
          c.spotUp = c.spotAt + 0.01 * model.spot ∧
          c.spotDown = c.spotAt - 0.01 * model.spot) := by
  intro c hc
  simp only [AsianOption.hedgeBody, List.mem_append, List.mem_singleton] at hc
  rcases hc with hmem | rfl
  · exact Or.inl hmem
  · exact Or.inr ⟨rfl, rfl, rfl, rfl, rfl⟩

/-- Shape of the call pair appended by one iteration of the lookback hedging
loop (identical to the Asian one). -/
theorem lookbackHedgeBody_calls (opt : LookbackOption) (ops : Ops) (model : BlackScholesModel)
    (steps : Nat) (u : Nat → ℚ) (ZN : Nat → Bool → Nat → Nat → ℚ)
    (st : HedgeState) (i : Nat) :
    ∀ c ∈ (opt.hedgeBody ops model steps u ZN st i).calls,
      c ∈ st.calls ∨
        (c.maturityArg = opt.maturity ∧ c.stepsArg = steps - c.step ∧
          c.numPathsArg = hedgeNumPaths ∧
          c.spotUp = c.spotAt + 0.01 * model.spot ∧
          c.spotDown = c.spotAt - 0.01 * model.spot) := by
  intro c hc
  simp only [LookbackOption.hedgeBody, List.mem_append, List.mem_singleton] at hc
  rcases hc with hmem | rfl
  · exact Or.inl hmem
  · exact Or.inr ⟨rfl, rfl, rfl, rfl, rfl⟩

/-- Shape of the call pair appended (in the untouched branch only) by one
iteration of the barrier hedging loop: reduced maturity `maturity - i*dt`,
reduced step count, hard-coded path count, bumps of `0.01 * model.spot`. -/
theorem barrierHedgeBody_calls (opt : BarrierOption) (ops : Ops) (model : BlackScholesModel)
    (steps : Nat) (u : Nat → ℚ) (ZN : Nat → Bool → Nat → Nat → ℚ)
    (st : BarrierHedgeState) (i : Nat) :
    ∀ c ∈ (opt.hedgeBody ops model steps u ZN st i).calls,
      c ∈ st.calls ∨
        (c.maturityArg = opt.maturity - (c.step : ℚ) * (opt.maturity / (steps : ℚ)) ∧
          c.stepsArg = steps - c.step ∧ c.numPathsArg = hedgeNumPaths ∧
          c.spotUp = c.spotAt + 0.01 * model.spot ∧
          c.spotDown = c.spotAt - 0.01 * model.spot) := by
  intro c hc
  rw [BarrierOption.hedgeBody] at hc
  split at hc
  · exact Or.inl hc
  · simp only [List.mem_append, List.mem_singleton] at hc
    rcases hc with hmem | rfl
    · exact Or.inl hmem
    · exact Or.inr ⟨rfl, rfl, rfl, rfl, rfl⟩

/-- Every pricing call of a full Asian hedge run (the initial one included)
uses the option's full maturity, the step count `steps - step`, 10000 paths,
and bumps of `0.01 * model.spot`. -/
theorem asianHedgeRun_calls_shape (opt : AsianOption) (ops : Ops) (model : BlackScholesModel)
    (steps : Nat) (u : Nat → ℚ) (ZN : Nat → Bool → Nat → Nat → ℚ) :
    ∀ c ∈ (opt.hedgeRun ops model steps u ZN).calls,
      c.maturityArg = opt.maturity ∧ c.stepsArg = steps - c.step ∧
      c.numPathsArg = hedgeNumPaths ∧
      c.spotUp = c.spotAt + 0.01 * model.spot ∧
      c.spotDown = c.spotAt - 0.01 * model.spot := by
  intro c hc
  simp only [AsianOption.hedgeRun] at hc
  refine foldl_calls_inv HedgeState.calls _ _
    (fun st i => asianHedgeBody_calls opt ops model steps u ZN st i) _ _ ?_ c hc
  intro c2 hc2
  simp only [List.mem_singleton] at hc2
  subst hc2
  exact ⟨rfl, rfl, rfl, rfl, rfl⟩

/-- Every pricing call of a full lookback hedge run uses the option's full
maturity, `steps - step`, 10000 paths, and bumps of `0.01 * model.spot`. -/
theorem lookbackHedgeRun_calls_shape (opt : LookbackOption) (ops : Ops)
    (model : BlackScholesModel) (steps : Nat) (u : Nat → ℚ)
    (ZN : Nat → Bool → Nat → Nat → ℚ) :
    ∀ c ∈ (opt.hedgeRun ops model steps u ZN).calls,
      c.maturityArg = opt.maturity ∧ c.stepsArg = steps - c.step ∧
      c.numPathsArg = hedgeNumPaths ∧
      c.spotUp = c.spotAt + 0.01 * model.spot ∧
      c.spotDown = c.spotAt - 0.01 * model.spot := by
  intro c hc
  simp only [LookbackOption.hedgeRun] at hc
  refine foldl_calls_inv HedgeState.calls _ _
    (fun st i => lookbackHedgeBody_calls opt ops model steps u ZN st i) _ _ ?_ c hc
  intro c2 hc2
  simp only [List.mem_singleton] at hc2
  subst hc2
  exact ⟨rfl, rfl, rfl, rfl, rfl⟩

/-- Every pricing call of a full barrier hedge run uses the reduced maturity
`maturity - step*dt`, `steps - step`, 10000 paths, and bumps of
`0.01 * model.spot`. -/
theorem barrierHedgeRun_calls_shape (opt : BarrierOption) (ops : Ops)
    (model : BlackScholesModel) (steps : Nat) (u : Nat → ℚ)
    (ZN : Nat → Bool → Nat → Nat → ℚ) :
    ∀ c ∈ (opt.hedgeRun ops model steps u ZN).calls,
      c.maturityArg = opt.maturity - (c.step : ℚ) * (opt.maturity / (steps : ℚ)) ∧
      c.stepsArg = steps - c.step ∧ c.numPathsArg = hedgeNumPaths ∧
      c.spotUp = c.spotAt + 0.01 * model.spot ∧
      c.spotDown = c.spotAt - 0.01 * model.spot := by
  intro c hc
  simp only [BarrierOption.hedgeRun] at hc
  refine foldl_calls_inv BarrierHedgeState.calls _ _
    (fun st i => barrierHedgeBody_calls opt ops model steps u ZN st i) _ _ ?_ c hc
  intro c2 hc2
  simp only [List.mem_singleton] at hc2
  subst hc2
  refine ⟨by norm_num, rfl, rfl, rfl, rfl⟩

/-- C1 (amended): at every rebalancing step `i` (the initial finite
difference at step 0 included), the bumped pricing calls of all three
Monte Carlo-hedged variants pass the reduced step count `steps - i`;
`BarrierOption::hedgeCost` additionally passes the reduced remaining horizon
`maturity - i*dt` as time-to-maturity, while `AsianOption::hedgeCost` and
`LookbackOption::hedgeCost` invoke the default pricing overload, which uses
the option's full original maturity as time-to-maturity. -/
theorem hedge_reprice_args_amended (ops : Ops) (model : BlackScholesModel)
    (aopt : AsianOption) (lopt : LookbackOption) (bopt : BarrierOption)
    (steps : Nat) (u : Nat → ℚ) (ZN : Nat → Bool → Nat → Nat → ℚ) :
    (∀ c ∈ (aopt.hedgeRun ops model steps u ZN).calls,
        c.maturityArg = aopt.maturity ∧ c.stepsArg = steps - c.step)
  ∧ (∀ c ∈ (lopt.hedgeRun ops model steps u ZN).calls,
        c.maturityArg = lopt.maturity ∧ c.stepsArg = steps - c.step)
  ∧ (∀ c ∈ (bopt.hedgeRun ops model steps u ZN).calls,
        c.maturityArg = bopt.maturity - (c.step : ℚ) * (bopt.maturity / (steps : ℚ)) ∧
        c.stepsArg = steps - c.step) := by
  refine ⟨?_, ?_, ?_⟩
  · intro c hc
    have h := asianHedgeRun_calls_shape aopt ops model steps u ZN c hc
    exact ⟨h.1, h.2.1⟩
  · intro c hc
    have h := lookbackHedgeRun_calls_shape lopt ops model steps u ZN c hc
    exact ⟨h.1, h.2.1⟩
  · intro c hc
    have h := barrierHedgeRun_calls_shape bopt ops model steps u ZN c hc
    exact ⟨h.1, h.2.1⟩

/-- Witness for C1 (amended): the membership hypothesis discharged at the
initial call of a concrete Asian hedge run with one step. -/
theorem hedge_reprice_args_amended_witness :
    (⟨0, (100 : ℚ), 100 + 0.01 * 100, 100 - 0.01 * 100, hedgeNumPaths, 1, (1 : ℚ)⟩ :
        FDCall).maturityArg = asianTestOpt.maturity ∧
    (⟨0, (100 : ℚ), 100 + 0.01 * 100, 100 - 0.01 * 100, hedgeNumPaths, 1, (1 : ℚ)⟩ :
        FDCall).stepsArg = 1 - (⟨0, (100 : ℚ), 100 + 0.01 * 100, 100 - 0.01 * 100,
        hedgeNumPaths, 1, (1 : ℚ)⟩ : FDCall).step :=
  (hedge_reprice_args_amended opsTest modelTest asianTestOpt lookTestOpt barrierTestOpt
      1 uOne znZero).1
    ⟨0, (100 : ℚ), 100 + 0.01 * 100, 100 - 0.01 * 100, hedgeNumPaths, 1, (1 : ℚ)⟩
    (by simp [AsianOption.hedgeRun, asianTestOpt, modelTest])

/-- C1 (counterexample): in the concrete Asian hedge run with `steps = 2`,
the pricing call at rebalancing step `i = 1` passes the full maturity 1 as
time-to-maturity, not the reduced remaining horizon
`maturity - i*dt = 1/2` the claim asserts. -/
theorem asian_hedge_full_maturity_cex :
    ((asianTestOpt.hedgeRun opsTest modelTest 2 uOne znZero).calls.getD 1
        defaultFDCall).step = 1
  ∧ ((asianTestOpt.hedgeRun opsTest modelTest 2 uOne znZero).calls.getD 1
        defaultFDCall).stepsArg = 2 - 1
  ∧ ((asianTestOpt.hedgeRun opsTest modelTest 2 uOne znZero).calls.getD 1
        defaultFDCall).maturityArg = 1
  ∧ (1 : ℚ) ≠ asianTestOpt.maturity - ((1 : Nat) : ℚ) * (asianTestOpt.maturity / ((2 : Nat) : ℚ)) := by
  have hr : List.range' 1 (2 - 1) = [1] := rfl
  refine ⟨?_, ?_, ?_, ?_⟩
  · simp [AsianOption.hedgeRun, AsianOption.hedgeBody, hr]
  · simp [AsianOption.hedgeRun, AsianOption.hedgeBody, hr]
  · simp [AsianOption.hedgeRun, AsianOption.hedgeBody, hr, asianTestOpt]
  · norm_num [asianTestOpt]

/-- C6 (amended): the finite-difference bump of every exotic hedge run is
the constant `epsilon = 0.01 * model.spot`, fixed from the initial spot: at
every step the bumped spots are `currentSpot ± 0.01 * model.spot`, not
`currentSpot ± 0.01 * currentSpot`. -/
theorem hedge_epsilon_fixed_initial_spot (ops : Ops) (model : BlackScholesModel)
    (aopt : AsianOption) (lopt : LookbackOption) (bopt : BarrierOption)
    (steps : Nat) (u : Nat → ℚ) (ZN : Nat → Bool → Nat → Nat → ℚ) :
    (∀ c ∈ (aopt.hedgeRun ops model steps u ZN).calls,
        c.spotUp = c.spotAt + 0.01 * model.spot ∧
        c.spotDown = c.spotAt - 0.01 * model.spot)
  ∧ (∀ c ∈ (lopt.hedgeRun ops model steps u ZN).calls,
        c.spotUp = c.spotAt + 0.01 * model.spot ∧
        c.spotDown = c.spotAt - 0.01 * model.spot)
  ∧ (∀ c ∈ (bopt.hedgeRun ops model steps u ZN).calls,
        c.spotUp = c.spotAt + 0.01 * model.spot ∧
        c.spotDown = c.spotAt - 0.01 * model.spot) := by
  refine ⟨?_, ?_, ?_⟩
  · intro c hc
    have h := asianHedgeRun_calls_shape aopt ops model steps u ZN c hc
    exact ⟨h.2.2.2.1, h.2.2.2.2⟩
  · intro c hc
    have h := lookbackHedgeRun_calls_shape lopt ops model steps u ZN c hc
    exact ⟨h.2.2.2.1, h.2.2.2.2⟩
  · intro c hc
    have h := barrierHedgeRun_calls_shape bopt ops model steps u ZN c hc
    exact ⟨h.2.2.2.1, h.2.2.2.2⟩

/-- Witness for C6 (amended): the membership hypothesis discharged at the
initial call of a concrete lookback hedge run with one step. -/
theorem hedge_epsilon_fixed_initial_spot_witness :
    (⟨0, (100 : ℚ), 100 + 0.01 * 100, 100 - 0.01 * 100, hedgeNumPaths, 1, (1 : ℚ)⟩ :
        FDCall).spotUp =
      (⟨0, (100 : ℚ), 100 + 0.01 * 100, 100 - 0.01 * 100, hedgeNumPaths, 1, (1 : ℚ)⟩ :
        FDCall).spotAt + 0.01 * modelTest.spot ∧
    (⟨0, (100 : ℚ), 100 + 0.01 * 100, 100 - 0.01 * 100, hedgeNumPaths, 1, (1 : ℚ)⟩ :
        FDCall).spotDown =
      (⟨0, (100 : ℚ), 100 + 0.01 * 100, 100 - 0.01 * 100, hedgeNumPaths, 1, (1 : ℚ)⟩ :
        FDCall).spotAt - 0.01 * modelTest.spot :=
  (hedge_epsilon_fixed_initial_spot opsTest modelTest asianTestOpt lookTestOpt barrierTestOpt
      1 uOne znZero).2.1
    ⟨0, (100 : ℚ), 100 + 0.01 * 100, 100 - 0.01 * 100, hedgeNumPaths, 1, (1 : ℚ)⟩
    (by simp [LookbackOption.hedgeRun, lookTestOpt, modelTest])

/-- C6 (counterexample): in the concrete Asian hedge run with `steps = 2`,
the simulated spot at rebalancing step 1 is 104, yet the bump actually used
is `spotUp - spotAt = 1 = 0.01 * 100` (the initial spot), which differs from
`0.01 * 104`, the value the claim asserts. -/
theorem hedge_epsilon_not_proportional_cex :
    ((asianTestOpt.hedgeRun opsTest modelTest 2 uOne znZero).calls.getD 1
        defaultFDCall).step = 1
  ∧ ((asianTestOpt.hedgeRun opsTest modelTest 2 uOne znZero).calls.getD 1
        defaultFDCall).spotAt = 104
  ∧ ((asianTestOpt.hedgeRun opsTest modelTest 2 uOne znZero).calls.getD 1
        defaultFDCall).spotUp -
      ((asianTestOpt.hedgeRun opsTest modelTest 2 uOne znZero).calls.getD 1
        defaultFDCall).spotAt = 0.01 * modelTest.spot
  ∧ ((asianTestOpt.hedgeRun opsTest modelTest 2 uOne znZero).calls.getD 1
        defaultFDCall).spotUp -
      ((asianTestOpt.hedgeRun opsTest modelTest 2 uOne znZero).calls.getD 1
        defaultFDCall).spotAt ≠
      0.01 * ((asianTestOpt.hedgeRun opsTest modelTest 2 uOne znZero).calls.getD 1
        defaultFDCall).spotAt := by
  have hr : List.range' 1 (2 - 1) = [1] := rfl
  have hspot :
      ((asianTestOpt.hedgeRun opsTest modelTest 2 uOne znZero).calls.getD 1
        defaultFDCall).spotAt = 104 := by
    simp [AsianOption.hedgeRun, AsianOption.hedgeBody, hr, asianTestOpt, hedgeSpotStep,
      opsTest, modelTest, uOne]
    norm_num
  have hup :
      ((asianTestOpt.hedgeRun opsTest modelTest 2 uOne znZero).calls.getD 1
        defaultFDCall).spotUp = 105 := by
    simp [AsianOption.hedgeRun, AsianOption.hedgeBody, hr, asianTestOpt, hedgeSpotStep,
      opsTest, modelTest, uOne]
    norm_num
  refine ⟨?_, hspot, ?_, ?_⟩
  · simp [AsianOption.hedgeRun, AsianOption.hedgeBody, hr]
  · rw [hspot, hup]
    norm_num [modelTest]
  · rw [hspot, hup]
    norm_num

/-- Accumulating a function over a list with `foldl` starting at `a` equals
`a` plus the sum of the mapped list. -/
theorem foldl_add_map (f : Nat → ℚ) :
    ∀ (l : List Nat) (a : ℚ), l.foldl (fun acc i => acc + f i) a = a + (l.map f).sum := by
  intro l
  induction l with
  | nil => intro a; simp
  | cons x t ih => intro a; simp [ih, add_assoc]

/-- The pricers' simulation loop started at the `k`-th point of the GBM
recurrence and fed the draws `Z k, ..., Z (k+n-1)` produces exactly the
prices `S (k+1), ..., S (k+n)` of the recurrence. -/
theorem simPath_gbmSpot (ops : Ops) (model : BlackScholesModel) (dt : ℚ) (Z : Nat → ℚ) :
    ∀ (n k : Nat),
      simPath ops model dt (gbmSpot ops model dt Z k) ((List.range' k n).map Z) =
        (List.range' k n).map (fun j => gbmSpot ops model dt Z (j + 1)) := by
  intro n
  induction n with
  | zero => intro k; simp [simPath]
  | succ n ih =>
    intro k
    rw [List.range'_succ]
    simp only [List.map_cons, simPath]
    have hstep : gbmStep ops model dt (Z k) (gbmSpot ops model dt Z k) =
        gbmSpot ops model dt Z (k + 1) := rfl
    rw [hstep, ih (k + 1)]

/-- The path built by one iteration of the Monte Carlo pricing loops is the
GBM recurrence evaluated at indices `1..n`: it has exactly `n` entries and
the seed spot `S 0` is not among its positions. -/
theorem mcPath_gbmSpot (ops : Ops) (model : BlackScholesModel) (dt : ℚ) (Z : Nat → ℚ)
    (n : Nat) :
    mcPath ops model dt ((List.range n).map Z) =
      (List.range n).map (fun j => gbmSpot ops model dt Z (j + 1)) := by
  rw [List.range_eq_range']
  exact simPath_gbmSpot ops model dt Z n 0

/-- C5: every Monte Carlo pricer returns
`exp(-rate*adjustedMaturity) * (sum of path payoffs / numPaths)` where each
path is the GBM recurrence `S 0 = model.spot`,
`S (j+1) = S j * exp((rate - dividend - 0.5*vol^2)*dt + vol*sqrt(dt)*Z j)`
with `dt = adjustedMaturity/steps` (evaluated at indices `1..steps`; the
lookback payoff additionally sees `S 0`), and the three-argument entry point
equals the four-argument one at the option's own maturity. -/
theorem mc_price_formula (ops : Ops) (model : BlackScholesModel)
    (aopt : AsianOption) (lopt : LookbackOption) (bopt : BarrierOption)
    (numPaths steps : Nat) (adjustedMaturity : ℚ) (Z : Nat → Nat → ℚ) :
    aopt.priceWith ops model numPaths steps adjustedMaturity Z =
      ops.exp (-(model.rate * adjustedMaturity)) *
        (((List.range numPaths).map (fun i => aopt.payoffPath
            ((List.range steps).map (fun j =>
              gbmSpot ops model (adjustedMaturity / (steps : ℚ)) (Z i) (j + 1))))).sum /
          (numPaths : ℚ))
  ∧ aopt.price ops model numPaths steps Z =
      aopt.priceWith ops model numPaths steps aopt.maturity Z
  ∧ lopt.priceWith ops model numPaths steps adjustedMaturity Z =
      ops.exp (-(model.rate * adjustedMaturity)) *
        (((List.range numPaths).map (fun i => lopt.payoffPath
            (model.spot :: (List.range steps).map (fun j =>
              gbmSpot ops model (adjustedMaturity / (steps : ℚ)) (Z i) (j + 1))))).sum /
          (numPaths : ℚ))
  ∧ lopt.price ops model numPaths steps Z =
      lopt.priceWith ops model numPaths steps lopt.maturity Z
  ∧ bopt.priceWith ops model numPaths steps adjustedMaturity Z =
      ops.exp (-(model.rate * adjustedMaturity)) *
        (((List.range numPaths).map (fun i => bopt.pathPayoff
            ((List.range steps).map (fun j =>
              gbmSpot ops model (adjustedMaturity / (steps : ℚ)) (Z i) (j + 1))))).sum /
          (numPaths : ℚ))
  ∧ bopt.price ops model numPaths steps Z =
      bopt.priceWith ops model numPaths steps bopt.maturity Z
  ∧ (∀ W : Nat → ℚ, gbmSpot ops model (adjustedMaturity / (steps : ℚ)) W 0 = model.spot)
  ∧ (∀ (W : Nat → ℚ) (j : Nat),
      gbmSpot ops model (adjustedMaturity / (steps : ℚ)) W (j + 1) =
        gbmSpot ops model (adjustedMaturity / (steps : ℚ)) W j *
          ops.exp ((model.rate - model.dividend -
              0.5 * model.volatility * model.volatility) * (adjustedMaturity / (steps : ℚ)) +
            model.volatility * ops.sqrt (adjustedMaturity / (steps : ℚ)) * W j)) := by
  refine ⟨?_, rfl, ?_, rfl, ?_, rfl, fun W => rfl, fun W j => rfl⟩
  · simp only [AsianOption.priceWith]
    rw [foldl_add_map (fun i => aopt.payoffPath
      (mcPath ops model (adjustedMaturity / (steps : ℚ)) ((List.range steps).map (Z i))))]
    simp only [mcPath_gbmSpot, zero_add]
  · simp only [LookbackOption.priceWith]
    rw [foldl_add_map (fun i => lopt.payoffPath
      (model.spot :: mcPath ops model (adjustedMaturity / (steps : ℚ)) ((List.range steps).map (Z i))))]
    simp only [mcPath_gbmSpot, zero_add]
  · simp only [BarrierOption.priceWith]
    rw [foldl_add_map (fun i => bopt.pathPayoff
      (mcPath ops model (adjustedMaturity / (steps : ℚ)) ((List.range steps).map (Z i))))]
    simp only [mcPath_gbmSpot, zero_add]

/-- Characterization of the Asian hedging fold: starting from a state whose
spot is the `j`-th point of the real-world recurrence, folding the loop body
over `j+1, ..., j+n` ends at the `(j+n)`-th point and appends exactly the
recurrence prices `j+1, ..., j+n` to the recorded trajectory. -/
theorem asianHedge_foldl_path (opt : AsianOption) (ops : Ops) (model : BlackScholesModel)
    (steps : Nat) (u : Nat → ℚ) (ZN : Nat → Bool → Nat → Nat → ℚ) :
    ∀ (n j : Nat) (st : HedgeState),
      st.spot = hedgeSpots ops model opt.maturity steps u j →
      ((List.range' (j + 1) n).foldl (opt.hedgeBody ops model steps u ZN) st).spot =
          hedgeSpots ops model opt.maturity steps u (j + n)
      ∧ ((List.range' (j + 1) n).foldl (opt.hedgeBody ops model steps u ZN) st).path =
          st.path ++ (List.range' (j + 1) n).map (hedgeSpots ops model opt.maturity steps u) := by
  intro n
  induction n with
  | zero => intro j st h; simp [h]
  | succ n ih =>
    intro j st h
    rw [List.range'_succ]
    simp only [List.foldl_cons, List.map_cons]
    have hspot : (opt.hedgeBody ops model steps u ZN st (j + 1)).spot =
        hedgeSpots ops model opt.maturity steps u (j + 1) := by
      simp only [AsianOption.hedgeBody, hedgeSpots, h]
    have hpath : (opt.hedgeBody ops model steps u ZN st (j + 1)).path =
        st.path ++ [hedgeSpots ops model opt.maturity steps u (j + 1)] := by
      simp only [AsianOption.hedgeBody, hedgeSpots, h]
    have hrec := ih (j + 1) (opt.hedgeBody ops model steps u ZN st (j + 1)) hspot
    have hidx : j + 1 + n = j + (n + 1) := by omega
    rw [hidx] at hrec
    refine ⟨hrec.1, ?_⟩
    rw [hrec.2, hpath]
    simp

/-- The trajectory recorded by a full Asian hedge run with at least one step:
it starts at the initial spot and holds exactly `steps` prices, the initial
spot followed by the `steps - 1` simulated loop prices. -/
theorem asianHedgeRun_path (opt : AsianOption) (ops : Ops) (model : BlackScholesModel)
    (steps : Nat) (u : Nat → ℚ) (ZN : Nat → Bool → Nat → Nat → ℚ) (hs : 1 ≤ steps) :
    (opt.hedgeRun ops model steps u ZN).path =
      model.spot :: (List.range' 1 (steps - 1)).map (hedgeSpots ops model opt.maturity steps u)
  ∧ (opt.hedgeRun ops model steps u ZN).path.length = steps
  ∧ (opt.hedgeRun ops model steps u ZN).path.head? = some model.spot := by
  have hchar := asianHedge_foldl_path opt ops model steps u ZN (steps - 1) 0
    { spot := model.spot,
      delta := (opt.price ops { model with spot := model.spot + 0.01 * model.spot }
            hedgeNumPaths steps (ZN 0 true) -
          opt.price ops { model with spot := model.spot - 0.01 * model.spot }
            hedgeNumPaths steps (ZN 0 false)) / (2 * (0.01 * model.spot)),
      cash := (opt.price ops { model with spot := model.spot + 0.01 * model.spot }
            hedgeNumPaths steps (ZN 0 true) -
          opt.price ops { model with spot := model.spot - 0.01 * model.spot }
            hedgeNumPaths steps (ZN 0 false)) / (2 * (0.01 * model.spot)) * model.spot,
      path := [model.spot],
      calls := [⟨0, model.spot, model.spot + 0.01 * model.spot,
        model.spot - 0.01 * model.spot, hedgeNumPaths, steps, opt.maturity⟩] } rfl
  have hrun : (opt.hedgeRun ops model steps u ZN).path =
      [model.spot] ++ (List.range' 1 (steps - 1)).map (hedgeSpots ops model opt.maturity steps u) := by
    rw [AsianOption.hedgeRun]
    exact hchar.2
  refine ⟨by simpa using hrun, ?_, ?_⟩
  · rw [hrun]
    simp only [List.length_append, List.length_map, List.length_range', List.length_cons,
      List.length_nil]
    omega
  · rw [hrun]
    rfl

/-- C9: the Asian pricer evaluates its payoff on a path of exactly `steps`
simulated prices, the GBM recurrence at indices `1..steps` (the initial spot
`S 0` is not among them); the lookback pricer evaluates on a path of
`steps + 1` prices whose first element is the initial spot (the same
recurrence at indices `0..steps`); and the Asian hedge evaluates its terminal
payoff on a real-world trajectory of `steps` prices that does include the
initial spot as its head. -/
theorem path_convention_asian_lookback (ops : Ops) (model : BlackScholesModel)
    (aopt : AsianOption) (steps : Nat) (adjustedMaturity : ℚ) (Z : Nat → ℚ)
    (u : Nat → ℚ) (ZN : Nat → Bool → Nat → Nat → ℚ) (hs : 1 ≤ steps) :
    mcPath ops model (adjustedMaturity / (steps : ℚ)) ((List.range steps).map Z) =
      (List.range steps).map (fun j =>
        gbmSpot ops model (adjustedMaturity / (steps : ℚ)) Z (j + 1))
  ∧ (mcPath ops model (adjustedMaturity / (steps : ℚ)) ((List.range steps).map Z)).length =
      steps
  ∧ model.spot :: mcPath ops model (adjustedMaturity / (steps : ℚ)) ((List.range steps).map Z) =
      (List.range (steps + 1)).map (gbmSpot ops model (adjustedMaturity / (steps : ℚ)) Z)
  ∧ (model.spot ::
      mcPath ops model (adjustedMaturity / (steps : ℚ)) ((List.range steps).map Z)).length =
      steps + 1
  ∧ (model.spot ::
      mcPath ops model (adjustedMaturity / (steps : ℚ)) ((List.range steps).map Z)).head? =
      some model.spot
  ∧ (aopt.hedgeRun ops model steps u ZN).path.head? = some model.spot
  ∧ (aopt.hedgeRun ops model steps u ZN).path.length = steps
  ∧ aopt.hedgeCost ops model steps u ZN =
      (aopt.hedgeRun ops model steps u ZN).cash -
        (aopt.hedgeRun ops model steps u ZN).delta * (aopt.hedgeRun ops model steps u ZN).spot +
        aopt.payoffPath (aopt.hedgeRun ops model steps u ZN).path := by
  have hmc := mcPath_gbmSpot ops model (adjustedMaturity / (steps : ℚ)) Z steps
  have hrunpath := asianHedgeRun_path aopt ops model steps u ZN hs
  refine ⟨hmc, ?_, ?_, ?_, rfl, hrunpath.2.2, hrunpath.2.1, rfl⟩
  · rw [hmc]
    simp
  · rw [hmc, List.range_succ_eq_map]
    simp [Function.comp]
    rfl
  · rw [hmc]
    simp

/-- Witness for C9: the step-count hypothesis discharged on a concrete
one-step configuration. -/
theorem path_convention_asian_lookback_witness :
    (asianTestOpt.hedgeRun opsTest modelTest 1 uOne znZero).path.length = 1
  ∧ (mcPath opsTest modelTest ((1 : ℚ) / ((1 : Nat) : ℚ))
      ((List.range 1).map (zZero 0))).length = 1 :=
  ⟨(path_convention_asian_lookback opsTest modelTest asianTestOpt 1 1 (zZero 0) uOne znZero
      (by decide)).2.2.2.2.2.2.1,
   (path_convention_asian_lookback opsTest modelTest asianTestOpt 1 1 (zZero 0) uOne znZero
      (by decide)).2.1⟩

/-- The reflection identity of the embedded normal CDF: given the erfc
reflection law `erfc(-y) = 2 - erfc(y)` (true of the real complementary
error function), `N(x) + N(-x) = 1`. -/
theorem normalCDF_reflection (ops : Ops) (herfc : ∀ y, ops.erfc (-y) = 2 - ops.erfc y)
    (x : ℚ) :
    BlackScholesModel.normalCDF ops x + BlackScholesModel.normalCDF ops (-x) = 1 := by
  simp only [BlackScholesModel.normalCDF, neg_neg, neg_mul]
  rw [herfc]
  ring

/-- C8: the analytic vanilla prices satisfy put-call parity exactly:
`priceAnalytic(option, true) - priceAnalytic(option, false)
  = spot*exp(-dividend*maturity) - strike*exp(-rate*maturity)`,
for every model with positive spot and volatility and every option with
positive strike and maturity, assuming only the erfc reflection law of the
underlying error-function primitive. -/
theorem analytic_put_call_parity (ops : Ops) (model : BlackScholesModel)
    (strike maturity : ℚ) (hspot : 0 < model.spot) (hvol : 0 < model.volatility)
    (hstrike : 0 < strike) (hmat : 0 < maturity)
    (herfc : ∀ y, ops.erfc (-y) = 2 - ops.erfc y) :
    model.priceAnalytic ops strike maturity true -
      model.priceAnalytic ops strike maturity false =
        model.spot * ops.exp (-(model.dividend * maturity)) -
          strike * ops.exp (-(model.rate * maturity)) := by
  have h1 := normalCDF_reflection ops herfc
    ((ops.log (model.spot / strike) +
        (model.rate - model.dividend + 0.5 * model.volatility * model.volatility) * maturity) /
      (model.volatility * ops.sqrt maturity))
  have h2 := normalCDF_reflection ops herfc
    ((ops.log (model.spot / strike) +
        (model.rate - model.dividend + 0.5 * model.volatility * model.volatility) * maturity) /
      (model.volatility * ops.sqrt maturity) - model.volatility * ops.sqrt maturity)
  simp only [BlackScholesModel.priceAnalytic, if_true, if_false, Bool.false_eq_true,
    ite_true, ite_false]
  linear_combination (model.spot * ops.exp (-(model.dividend * maturity))) * h1 -
    (strike * ops.exp (-(model.rate * maturity))) * h2

/-- Witness for C8: the positivity and reflection hypotheses discharged at
the concrete model and option. -/
theorem analytic_put_call_parity_witness :
    modelTest.priceAnalytic opsTest 100 1 true - modelTest.priceAnalytic opsTest 100 1 false =
      modelTest.spot * opsTest.exp (-(modelTest.dividend * 1)) -
        (100 : ℚ) * opsTest.exp (-(modelTest.rate * 1)) :=
  analytic_put_call_parity opsTest modelTest 100 1
    (by norm_num [modelTest]) (by norm_num [modelTest]) (by norm_num) (by norm_num)
    (fun y => by simp only [opsTest]; ring)

/-- C3 (code bug): the vanilla hedging loops run through `i = steps`, where
the remaining maturity `maturity - steps*dt` is exactly 0 and the `d1`
recomputation divides by `volatility * sqrt(0) = 0`; no guard or special
case exists.  Concretely: the call run with 2 steps recomputes its delta at
remaining maturities `1/2` and then `0`, with `d1` denominators `1/10` and
then `0`; the put run with 1 step recomputes at remaining maturity `0` with
denominator `0` while its spot still equals the strike, so the `d1` numerator
`log(spot/strike) + c*0` is also `0` — the `0/0` that is NaN under IEEE
arithmetic and propagates into the cash account. -/
theorem vanilla_hedge_final_step_zero_tau_division :
    (callTestOpt.hedgeRun opsTest modelTest 2 uOne).taus = [1, 1/2, 0]
  ∧ (callTestOpt.hedgeRun opsTest modelTest 2 uOne).denoms = [1/5, 1/10, 0]
  ∧ (putTestOpt.hedgeRun opsTest modelTest 1 uOne).taus = [1, 0]
  ∧ (putTestOpt.hedgeRun opsTest modelTest 1 uOne).denoms = [1/5, 0]
  ∧ (putTestOpt.hedgeRun opsTest modelTest 1 uOne).spot = putTestOpt.strike
  ∧ opsTest.log ((putTestOpt.hedgeRun opsTest modelTest 1 uOne).spot / putTestOpt.strike) +
      (modelTest.rate - modelTest.dividend +
        0.5 * modelTest.volatility * modelTest.volatility) * 0 = 0
  ∧ modelTest.volatility * opsTest.sqrt 0 = 0 := by
  have hr2 : List.range' 1 2 = [1, 2] := rfl
  have hr1 : List.range' 1 1 = [1] := rfl
  refine ⟨?_, ?_, ?_, ?_, ?_, ?_, ?_⟩
  · norm_num [CallOption.hedgeRun, vanillaHedgeBody, hr2, opsTest, modelTest, callTestOpt]
  · norm_num [CallOption.hedgeRun, vanillaHedgeBody, hr2, opsTest, modelTest, callTestOpt]
  · norm_num [PutOption.hedgeRun, vanillaHedgeBody, hr1, opsTest, modelTest, putTestOpt]
  · norm_num [PutOption.hedgeRun, vanillaHedgeBody, hr1, opsTest, modelTest, putTestOpt]
  · norm_num [PutOption.hedgeRun, vanillaHedgeBody, hr1, opsTest, modelTest, putTestOpt]
  · norm_num [PutOption.hedgeRun, vanillaHedgeBody, hr1, opsTest, modelTest, putTestOpt]
  · norm_num [opsTest, modelTest]

/-- Witness for C4: the error results evaluated at the concrete options and
spot 100. -/
theorem exotic_terminal_payoff_always_errors_witness :
    asianTestOpt.payoffSpot 100 =
      Except.error "payoff(double spot) is not applicable for AsianOption."
  ∧ lookTestOpt.payoffSpot 100 =
      Except.error "payoff(double spot) is not applicable for LookbackOption." :=
  ⟨(exotic_terminal_payoff_always_errors asianTestOpt lookTestOpt 100).1,
   (exotic_terminal_payoff_always_errors asianTestOpt lookTestOpt 100).2.2.1⟩
